import Mathlib

/-!
Verification development for the gorm101 example repository.

The repository's own code declares a record shape (`User`), a pre-create
hook (`BeforeCreate`), a table initializer (`initTable`) and sequences of
calls into a struct-to-table mapping layer.  The mapping layer itself is
external, so its operations are modelled here from the specification
(spec.md sections 3, 4.3, 4.4): rows, a database state, create / query /
update / delete / transaction operations.  Concrete definitions taken from
the source keep the source's shape and names.
-/

namespace Gorm

/-- The `User` record shape from the source (part_000 lines 317-333):
primary key `id`, payload columns `name`, `email` (nullable, with a column
default), `age`, `birthday` (nullable), the auto-create timestamp
`created_at`, the auto-update timestamp `update_on`, and the soft-delete
flag `is_deleted`.  Go zero values become `0`, `""` and `none`. -/
structure User where
  id : Nat := 0
  name : String := ""
  email : Option String := none
  age : Nat := 0
  birthday : Option Nat := none
  createdAt : Nat := 0
  updateOn : Nat := 0
  isDeleted : Nat := 0
deriving DecidableEq

/-- The `BeforeCreate` hook from the source (part_000 lines 347-352):
a zero `Age` is defaulted to 20. -/
def beforeCreate (u : User) : User :=
  if u.age = 0 then { u with age := 20 } else u

/-- Database state: the stored rows of `t_users` in storage order and the
next auto-increment primary-key value. -/
structure DB where
  rows : List User := []
  nextId : Nat := 1
deriving DecidableEq

/-- Error taxonomy of the persistence layer (spec.md section 7), restricted
to the cases the examples exercise. -/
inductive DbError where
  | recordNotFound
  | missingWhereClause
  | duplicateKey (id : Nat)
  | migrationFailure
deriving DecidableEq

/-- Modelled from the spec: the database-level column default for `email`
(the `default:default@gmail.com` annotation): a zero-valued `email` is
filled with the default on insert. -/
def fillDefaults (u : User) : User :=
  if u.email = none then { u with email := some "default@gmail.com" } else u

/-- Modelled from the spec: the statement executor's row insert.  A zero
primary key is assigned the next auto-increment value; inserting a
duplicate primary key violates the uniqueness constraint and fails. -/
def insertRow (db : DB) (u : User) : Except DbError (DB × User) :=
  let assigned := if u.id = 0 then { u with id := db.nextId } else u
  if db.rows.any (fun r => r.id == assigned.id) then
    .error (.duplicateKey assigned.id)
  else
    .ok ({ rows := db.rows ++ [fillDefaults assigned],
           nextId := max db.nextId assigned.id + 1 }, assigned)

/-- Modelled from the spec: single-record create (spec.md section 4.4).
Runs the pre-create hook unless hooks are skipped for the call, fills the
auto-create and auto-update timestamps with the current time, inserts, and
writes the assigned record (with its generated key) back to the caller. -/
def create (db : DB) (u : User) (now : Nat) (skipHooks : Bool) :
    Except DbError (DB × User) :=
  insertRow db
    { (if skipHooks then u else beforeCreate u) with
      createdAt := now, updateOn := now }

/-- An explicit key-value mapping over the `User` columns: a field is
`some v` exactly when the key is present in the map. -/
structure UserMap where
  name : Option String := none
  email : Option String := none
  age : Option Nat := none
  birthday : Option Nat := none
  createdAt : Option Nat := none
  updateOn : Option Nat := none
deriving DecidableEq

/-- The row a map-based create inserts: exactly the supplied key-value
pairs; absent columns keep their zero values. -/
def rowOfMap (m : UserMap) (id : Nat) : User :=
  { id := id, name := m.name.getD "", email := m.email,
    age := m.age.getD 0, birthday := m.birthday,
    createdAt := m.createdAt.getD 0, updateOn := m.updateOn.getD 0,
    isDeleted := 0 }

/-- Modelled from the spec: map-based create (part_000 lines 495-503 and
its comment).  No hook runs, the timestamp columns are not auto-filled
unless given as map keys, and the generated primary key is not written
back: only the new database state is returned. -/
def createMap (db : DB) (m : UserMap) : Except DbError DB :=
  match insertRow db (rowOfMap m 0) with
  | .error e => .error e
  | .ok p => .ok p.1

/-- A query condition: one predicate of the AND-chain (spec.md section 3,
Filter Specification). -/
abbrev Cond := User → Bool

/-- Modelled from the spec: the not-deleted condition the soft-delete-aware
builder injects (`is_deleted = 0`). -/
def notDeleted : Cond := fun r => r.isDeleted == 0

/-- Modelled from the spec: the rows matching an AND-chain of conditions,
in storage order, with no soft-delete scoping (the unscoped variant). -/
def matching (db : DB) (conds : List Cond) : List User :=
  db.rows.filter (fun r => conds.all (fun c => c r))

/-- Modelled from the spec: the scoped variant injects the not-deleted
condition into every builder invocation (spec.md section 4.3). -/
def scopedMatching (db : DB) (conds : List Cond) : List User :=
  matching db (notDeleted :: conds)

/-- The matching row with the least primary key, given one matching row and
the rest. -/
def minByPk (r : User) (rs : List User) : User :=
  rs.foldl (fun a b => if b.id < a.id then b else a) r

/-- The matching row with the greatest primary key. -/
def maxByPk (r : User) (rs : List User) : User :=
  rs.foldl (fun a b => if a.id < b.id then b else a) r

/-- Modelled from the spec: `First` — fetch-one, implicit ascending
primary-key order; zero matching rows signal `recordNotFound`. -/
def firstRow (db : DB) (conds : List Cond) : Except DbError User :=
  match scopedMatching db conds with
  | [] => .error .recordNotFound
  | r :: rs => .ok (minByPk r rs)

/-- Modelled from the spec: `Last` — fetch-one, implicit descending
primary-key order; zero matching rows signal `recordNotFound`. -/
def lastRow (db : DB) (conds : List Cond) : Except DbError User :=
  match scopedMatching db conds with
  | [] => .error .recordNotFound
  | r :: rs => .ok (maxByPk r rs)

/-- Modelled from the spec: `Take` — fetch-one with no implicit ordering
(an arbitrary matching row; the model takes the first in storage order);
zero matching rows signal `recordNotFound`. -/
def takeRow (db : DB) (conds : List Cond) : Except DbError User :=
  match scopedMatching db conds with
  | [] => .error .recordNotFound
  | r :: _ => .ok r

/-- Modelled from the spec: `Find` — fetch-many into a collection; zero
matching rows yield the empty collection, never an error. -/
def findRows (db : DB) (conds : List Cond) : Except DbError (List User) :=
  .ok (scopedMatching db conds)

/-- Modelled from the spec: the unscoped `Find`, which bypasses the
soft-delete scoping. -/
def unscopedFindRows (db : DB) (conds : List Cond) : Except DbError (List User) :=
  .ok (matching db conds)

/-- Modelled from the spec: applying a struct-based update specification to
a stored row (part_000 lines 925-938).  Only non-zero fields of the given
record are written; zero-valued fields of the stored row are left
unchanged.  The auto-update timestamp is refreshed. -/
def applyStructUpdate (r : User) (u : User) (now : Nat) : User :=
  { r with
    name := if u.name = "" then r.name else u.name,
    email := if u.email.isSome then u.email else r.email,
    age := if u.age = 0 then r.age else u.age,
    birthday := if u.birthday.isSome then u.birthday else r.birthday,
    createdAt := if u.createdAt = 0 then r.createdAt else u.createdAt,
    isDeleted := if u.isDeleted = 0 then r.isDeleted else u.isDeleted,
    updateOn := now }

/-- Modelled from the spec: applying a map-based update specification to a
stored row (part_000 lines 940-953).  Exactly the given keys are written,
zero values included; absent keys leave the stored row unchanged.  The
auto-update timestamp is refreshed unless the map supplies it. -/
def applyMapUpdate (r : User) (m : UserMap) (now : Nat) : User :=
  { r with
    name := m.name.getD r.name,
    email := if m.email.isSome then m.email else r.email,
    age := m.age.getD r.age,
    birthday := if m.birthday.isSome then m.birthday else r.birthday,
    createdAt := m.createdAt.getD r.createdAt,
    updateOn := m.updateOn.getD now }

/-- Modelled from the spec: batch struct-based update (part_000 lines
999-1026).  With an empty condition list and global update not enabled for
the call, it refuses with `missingWhereClause` and leaves the state
unchanged; otherwise it updates every scoped matching row and reports the
affected-row count. -/
def updatesBatch (db : DB) (conds : List Cond) (u : User) (now : Nat)
    (allowGlobalUpdate : Bool) : Except DbError Nat × DB :=
  if conds.isEmpty && !allowGlobalUpdate then
    (.error .missingWhereClause, db)
  else
    (.ok (scopedMatching db conds).length,
     { db with rows := db.rows.map (fun r =>
         if notDeleted r && conds.all (fun c => c r) then
           applyStructUpdate r u now
         else r) })

/-- Modelled from the spec: soft delete (part_000 lines 1061-1067).  The
descriptor declares a soft-delete flag, so delete is rewritten into an
update setting the flag to the deletion marker (the current timestamp) on
every scoped matching row; no row is removed. -/
def softDelete (db : DB) (conds : List Cond) (now : Nat) : DB :=
  { db with rows := db.rows.map (fun r =>
      if notDeleted r && conds.all (fun c => c r) then
        { r with isDeleted := now }
      else r) }

/-- Modelled from the spec: the unscoped delete, which bypasses the
soft-delete rewrite and removes the matching rows. -/
def unscopedDelete (db : DB) (conds : List Cond) : DB :=
  { db with rows := db.rows.filter (fun r => !(conds.all (fun c => c r))) }

/-- A statement of a unit of work: a state transformer that may fail. -/
abbrev Stmt := DB → Except DbError DB

/-- Modelled from the spec: running a unit of work statement by statement
on the working state; the first error aborts the remainder. -/
def runWork (db : DB) : List Stmt → Except DbError DB
  | [] => .ok db
  | f :: fs =>
    match f db with
    | .error e => .error e
    | .ok db1 => runWork db1 fs

/-- Modelled from the spec: the managed transaction form (part_000 lines
1087-1097).  An error from the unit of work rolls back — the committed
state is unchanged and the same error is propagated; a nil return commits
the working state atomically. -/
def transaction (db : DB) (work : List Stmt) : Except DbError Unit × DB :=
  match runWork db work with
  | .error e => (.error e, db)
  | .ok db1 => (.ok (), db1)

/-- A create statement for a unit of work, as issued inside the source's
transaction bodies (`tx.Create(&User{...})`). -/
def stmtCreate (u : User) (now : Nat) : Stmt :=
  fun db =>
    match create db u now false with
    | .error e => .error e
    | .ok p => .ok p.1

/-- One ordering clause: a column and a direction (spec.md section 4.3). -/
structure OrderClause where
  column : String
  descending : Bool
deriving DecidableEq

/-- Splitting a character list at a separator character. -/
def splitOnCharAux (sep : Char) : List Char → List Char → List (List Char)
  | [], acc => [acc.reverse]
  | c :: cs, acc =>
    if c = sep then acc.reverse :: splitOnCharAux sep cs []
    else splitOnCharAux sep cs (c :: acc)

/-- The words of a character list (split on spaces, empties dropped). -/
def wordsOf (cs : List Char) : List (List Char) :=
  (splitOnCharAux ' ' cs []).filter (fun w => !w.isEmpty)

/-- One comma-separated item of an order string: a column name optionally
followed by the keyword `desc`. -/
def parseOrderItem (cs : List Char) : OrderClause :=
  match wordsOf cs with
  | [c] => ⟨String.mk c, false⟩
  | [c, d] => ⟨String.mk c, d = String.toList "desc"⟩
  | _ => ⟨"", false⟩

/-- Modelled from the spec: parsing an `Order` argument — a comma-separated
sequence of ordering clauses. -/
def parseOrder (s : String) : List OrderClause :=
  (splitOnCharAux ',' s.data []).map parseOrderItem

/-- A query under construction: the AND-chain of conditions and the
accumulated ordering clauses. -/
structure Query where
  conds : List Cond := []
  orderings : List OrderClause := []

/-- Modelled from the spec: the `Order` call — later calls APPEND ordering
clauses rather than replace them (spec.md section 4.3). -/
def Query.order (q : Query) (s : String) : Query :=
  { q with orderings := q.orderings ++ parseOrder s }

/-- Three-way comparison on `Nat` keys. -/
def cmpNat (a b : Nat) : Ordering :=
  if a < b then .lt else if b < a then .gt else .eq

/-- Three-way comparison on `String` keys. -/
def cmpStr (a b : String) : Ordering :=
  if a < b then .lt else if b < a then .gt else .eq

/-- The comparison one ordering clause induces on rows (`age`, `name` and
`id` are the columns the examples order by). -/
def cmpClause (c : OrderClause) (a b : User) : Ordering :=
  let o :=
    if c.column = "age" then cmpNat a.age b.age
    else if c.column = "name" then cmpStr a.name b.name
    else if c.column = "id" then cmpNat a.id b.id
    else .eq
  if c.descending then o.swap else o

/-- Lexicographic comparison along a sequence of ordering clauses, applied
in call order. -/
def cmpClauses : List OrderClause → User → User → Ordering
  | [], _, _ => .eq
  | c :: cs, a, b =>
    match cmpClause c a b with
    | .eq => cmpClauses cs a b
    | o => o

/-- The Boolean order the clause sequence induces. -/
def leClauses (cs : List OrderClause) (a b : User) : Bool :=
  match cmpClauses cs a b with
  | .gt => false
  | _ => true

/-- Stable insertion into a sorted list. -/
def insertOrdered (le : User → User → Bool) (x : User) : List User → List User
  | [] => [x]
  | y :: ys => if le x y then x :: y :: ys else y :: insertOrdered le x ys

/-- Stable sort by repeated insertion. -/
def sortOrdered (le : User → User → Bool) (l : List User) : List User :=
  l.foldr (insertOrdered le) []

/-- Modelled from the spec: executing a query — the scoped matching rows,
sorted by the accumulated ordering clauses. -/
def runQuery (db : DB) (q : Query) : List User :=
  sortOrdered (leClauses q.orderings) (scopedMatching db q.conds)

/-- One reflected column: name and type (spec.md section 3). -/
structure ColumnDef where
  name : String
  ty : String
deriving DecidableEq

/-- The reflected column list of the `User` shape from the source. -/
def userColumns : List ColumnDef :=
  [⟨"id", "uint"⟩, ⟨"name", "string"⟩, ⟨"email", "string"⟩,
   ⟨"age", "uint8"⟩, ⟨"birthday", "time"⟩, ⟨"member_number", "string"⟩,
   ⟨"activated_at", "time"⟩, ⟨"created_at", "int64"⟩,
   ⟨"update_on", "int64"⟩, ⟨"is_deleted", "uint"⟩]

/-- Migrator state: `none` when the table does not exist, otherwise the
table's column list. -/
structure MigratorState where
  table : Option (List ColumnDef)
deriving DecidableEq

/-- `HasTable`: whether the table exists. -/
def hasTable (m : MigratorState) : Bool := m.table.isSome

/-- Modelled from the spec: `CreateTable` creates the reflected table; a
CREATE on an existing table is a DDL failure. -/
def createTable (m : MigratorState) : Except DbError MigratorState :=
  if hasTable m then .error .migrationFailure
  else .ok { table := some userColumns }

/-- Modelled from the spec: `AutoMigrate` reconciles columns — missing
columns of the reflected shape are added, existing columns are never
dropped and never type-changed (spec.md section 4.2). -/
def autoMigrate (m : MigratorState) : Except DbError MigratorState :=
  match m.table with
  | none => .ok { table := some userColumns }
  | some cols =>
    .ok { table := some (cols ++ userColumns.filter
        (fun c => !(cols.any (fun d => d.name == c.name)))) }

/-- `initTable` from the source (part_000 lines 335-344): create the table
only when absent, then reconcile columns. -/
def initTable (m : MigratorState) : Except DbError MigratorState :=
  if !(hasTable m) then
    match createTable m with
    | .error e => .error e
    | .ok m1 => autoMigrate m1
  else autoMigrate m

/-! ## Helper lemmas -/

/-- Every row a scoped query returns satisfies the not-deleted flag. -/
lemma isDeleted_of_mem_scopedMatching {db : DB} {conds : List Cond} {x : User}
    (h : x ∈ scopedMatching db conds) : x.isDeleted = 0 := by
  simp only [scopedMatching, matching, List.mem_filter, List.all_cons,
    Bool.and_eq_true, notDeleted, beq_iff_eq] at h
  exact h.2.1

/-- The filling of column defaults touches only the `email` column. -/
lemma fillDefaults_fields (s : User) :
    (fillDefaults s).age = s.age ∧ (fillDefaults s).name = s.name ∧
    (fillDefaults s).createdAt = s.createdAt ∧
    (fillDefaults s).updateOn = s.updateOn ∧ (fillDefaults s).id = s.id ∧
    (fillDefaults s).birthday = s.birthday ∧
    (fillDefaults s).isDeleted = s.isDeleted := by
  unfold fillDefaults
  split <;> simp

/-- A successful insert appends exactly one (default-filled) row and writes
back the given record, with the generated key when the given key was 0. -/
lemma insertRow_ok {db : DB} {u : User} {db1 : DB} {u1 : User}
    (h : insertRow db u = .ok (db1, u1)) :
    db1.rows = db.rows ++ [fillDefaults u1] ∧
    u1.age = u.age ∧ u1.name = u.name ∧ u1.createdAt = u.createdAt ∧
    u1.updateOn = u.updateOn ∧ u1.birthday = u.birthday ∧
    u1.isDeleted = u.isDeleted ∧ u1.email = u.email ∧
    (u.id = 0 → u1.id = db.nextId) ∧ (u.id ≠ 0 → u1.id = u.id) := by
  simp only [insertRow] at h
  split at h
  next hid =>
    split at h
    next => exact absurd h (by simp)
    next =>
      rw [Except.ok.injEq, Prod.mk.injEq] at h
      obtain ⟨h1, h2⟩ := h
      subst h1
      subst h2
      exact ⟨rfl, rfl, rfl, rfl, rfl, rfl, rfl, rfl, fun _ => rfl,
        fun hne => absurd hid hne⟩
  next hid =>
    split at h
    next => exact absurd h (by simp)
    next =>
      rw [Except.ok.injEq, Prod.mk.injEq] at h
      obtain ⟨h1, h2⟩ := h
      subst h1
      subst h2
      exact ⟨rfl, rfl, rfl, rfl, rfl, rfl, rfl, rfl, fun hz => absurd hz hid,
        fun _ => rfl⟩

/-- `minByPk` returns a member with the least primary key. -/
lemma minByPk_spec (r : User) (rs : List User) :
    minByPk r rs ∈ r :: rs ∧ ∀ v ∈ r :: rs, (minByPk r rs).id ≤ v.id := by
  induction rs generalizing r with
  | nil =>
    refine ⟨by simp [minByPk], ?_⟩
    intro v hv
    rcases List.mem_cons.mp hv with rfl | hv2
    · exact le_refl _
    · cases hv2
  | cons b t ih =>
    by_cases hb : b.id < r.id
    · have hstep : minByPk r (b :: t) = minByPk b t := by
        simp [minByPk, List.foldl_cons, hb]
      obtain ⟨ihm, ihle⟩ := ih b
      refine ⟨?_, ?_⟩
      · rw [hstep]
        exact List.mem_cons_of_mem _ ihm
      · intro v hv
        rw [hstep]
        rcases List.mem_cons.mp hv with rfl | hv2
        · exact le_trans (ihle _ (List.mem_cons_self _ _)) (le_of_lt hb)
        · exact ihle _ hv2
    · have hstep : minByPk r (b :: t) = minByPk r t := by
        simp [minByPk, List.foldl_cons, hb]
      obtain ⟨ihm, ihle⟩ := ih r
      refine ⟨?_, ?_⟩
      · rw [hstep]
        rcases List.mem_cons.mp ihm with h | h
        · rw [h]
          exact List.mem_cons_self _ _
        · exact List.mem_cons_of_mem _ (List.mem_cons_of_mem _ h)
      · intro v hv
        rw [hstep]
        rcases List.mem_cons.mp hv with rfl | hv2
        · exact ihle _ (List.mem_cons_self _ _)
        · rcases List.mem_cons.mp hv2 with rfl | hvt
          · exact le_trans (ihle _ (List.mem_cons_self _ _)) (le_of_not_lt hb)
          · exact ihle _ (List.mem_cons_of_mem _ hvt)

/-- `maxByPk` returns a member with the greatest primary key. -/
lemma maxByPk_spec (r : User) (rs : List User) :
    maxByPk r rs ∈ r :: rs ∧ ∀ v ∈ r :: rs, v.id ≤ (maxByPk r rs).id := by
  induction rs generalizing r with
  | nil =>
    refine ⟨by simp [maxByPk], ?_⟩
    intro v hv
    rcases List.mem_cons.mp hv with rfl | hv2
    · exact le_refl _
    · cases hv2
  | cons b t ih =>
    by_cases hb : r.id < b.id
    · have hstep : maxByPk r (b :: t) = maxByPk b t := by
        simp [maxByPk, List.foldl_cons, hb]
      obtain ⟨ihm, ihle⟩ := ih b
      refine ⟨?_, ?_⟩
      · rw [hstep]
        exact List.mem_cons_of_mem _ ihm
      · intro v hv
        rw [hstep]
        rcases List.mem_cons.mp hv with rfl | hv2
        · exact le_trans (le_of_lt hb) (ihle _ (List.mem_cons_self _ _))
        · exact ihle _ hv2
    · have hstep : maxByPk r (b :: t) = maxByPk r t := by
        simp [maxByPk, List.foldl_cons, hb]
      obtain ⟨ihm, ihle⟩ := ih r
      refine ⟨?_, ?_⟩
      · rw [hstep]
        rcases List.mem_cons.mp ihm with h | h
        · rw [h]
          exact List.mem_cons_self _ _
        · exact List.mem_cons_of_mem _ (List.mem_cons_of_mem _ h)
      · intro v hv
        rw [hstep]
        rcases List.mem_cons.mp hv with rfl | hv2
        · exact ihle _ (List.mem_cons_self _ _)
        · rcases List.mem_cons.mp hv2 with rfl | hvt
          · exact le_trans (le_of_not_lt hb) (ihle _ (List.mem_cons_self _ _))
          · exact ihle _ (List.mem_cons_of_mem _ hvt)

/-! ## Concrete fixtures for the witnesses -/

/-- The empty database. -/
def emptyDb : DB := { }

/-- A unit of work whose second create violates primary-key uniqueness
(the source's `transaction5` record carries the explicit key 20). -/
def txFailWork : List Stmt :=
  [stmtCreate { name := "hello-transaction5", id := 20 } 7,
   stmtCreate { name := "hello-transaction5", id := 20 } 7]

/-- A unit of work that succeeds (the source's first managed create). -/
def txOkWork : List Stmt :=
  [stmtCreate { name := "hello-transaction", age := 19 } 7]

/-- The state `txOkWork` commits from the empty database. -/
def txOkDb : DB :=
  { rows := [{ id := 1, name := "hello-transaction",
               email := some "default@gmail.com", age := 19,
               createdAt := 7, updateOn := 7 }],
    nextId := 2 }

/-! ## Claim theorems -/

/-- C1: for every managed transaction, an error returned from the unit of
work rolls back every statement issued inside it — the database state is
unchanged and the same error is returned to the caller; a nil return
commits all the statements' effects atomically. -/
theorem transaction_rollback_commit (db : DB) (work : List Stmt) :
    (∀ e, runWork db work = .error e → transaction db work = (.error e, db)) ∧
    (∀ db1, runWork db work = .ok db1 → transaction db work = (.ok (), db1)) := by
  constructor
  · intro e h
    simp [transaction, h]
  · intro db1 h
    simp [transaction, h]

/-- C1 witness: from the empty database, the unit of work whose second
create violates key uniqueness rolls back (no row persisted, the duplicate
key error propagated); the successful unit of work commits its row. -/
theorem transaction_rollback_commit_witness :
    transaction emptyDb txFailWork = (.error (.duplicateKey 20), emptyDb) ∧
    transaction emptyDb txOkWork = (.ok (), txOkDb) :=
  ⟨(transaction_rollback_commit emptyDb txFailWork).1 (.duplicateKey 20) rfl,
   (transaction_rollback_commit emptyDb txOkWork).2 txOkDb rfl⟩

/-- C3: for every filter, a fetch-one operation (First, Last, Take) signals
`recordNotFound` exactly when zero rows match, whereas the fetch-many Find
returns the (possibly empty) matching collection and never an error. -/
theorem fetch_one_vs_find_empty (db : DB) (conds : List Cond) :
    (firstRow db conds = .error .recordNotFound ↔ scopedMatching db conds = []) ∧
    (lastRow db conds = .error .recordNotFound ↔ scopedMatching db conds = []) ∧
    (takeRow db conds = .error .recordNotFound ↔ scopedMatching db conds = []) ∧
    findRows db conds = .ok (scopedMatching db conds) := by
  refine ⟨?_, ?_, ?_, rfl⟩
  · cases hm : scopedMatching db conds with
    | nil => simp [firstRow, hm]
    | cons r rs => simp [firstRow, hm]
  · cases hm : scopedMatching db conds with
    | nil => simp [lastRow, hm]
    | cons r rs => simp [lastRow, hm]
  · cases hm : scopedMatching db conds with
    | nil => simp [takeRow, hm]
    | cons r rs => simp [takeRow, hm]

/-- C3 witness: against the empty database, First signals `recordNotFound`
while Find yields the empty collection without error. -/
theorem fetch_one_vs_find_empty_witness :
    firstRow emptyDb [] = .error .recordNotFound ∧
    lastRow emptyDb [] = .error .recordNotFound ∧
    takeRow emptyDb [] = .error .recordNotFound ∧
    findRows emptyDb [] = .ok [] :=
  ⟨(fetch_one_vs_find_empty emptyDb []).1.mpr rfl,
   (fetch_one_vs_find_empty emptyDb []).2.1.mpr rfl,
   (fetch_one_vs_find_empty emptyDb []).2.2.1.mpr rfl,
   (fetch_one_vs_find_empty emptyDb []).2.2.2⟩

/-- C8: ordering clauses append in call order rather than replace — a
single call with the argument given as a comma-separated pair and the two
chained calls produce the same result sequence for every query and every
database state. -/
theorem order_append_equiv (db : DB) (q : Query) :
    runQuery db (Query.order q "age desc, name") =
      runQuery db (Query.order (Query.order q "age desc") "name") := by
  have hp : parseOrder "age desc, name" =
      parseOrder "age desc" ++ parseOrder "name" := by decide
  simp [Query.order, runQuery, hp]

/-- C8 witness: the two call shapes agree on a concrete database, and the
shared result sequence is age-descending. -/
theorem order_append_equiv_witness :
    runQuery { rows := [{ id := 1, name := "b", age := 25 },
                        { id := 2, name := "a", age := 30 }], nextId := 3 }
        (Query.order { } "age desc, name") =
      runQuery { rows := [{ id := 1, name := "b", age := 25 },
                          { id := 2, name := "a", age := 30 }], nextId := 3 }
        (Query.order (Query.order { } "age desc") "name") ∧
    runQuery { rows := [{ id := 1, name := "b", age := 25 },
                        { id := 2, name := "a", age := 30 }], nextId := 3 }
        (Query.order { } "age desc, name") =
      [{ id := 2, name := "a", age := 30 }, { id := 1, name := "b", age := 25 }] :=
  ⟨order_append_equiv _ _, rfl⟩

/-- C2: a struct-based update writes only the fields whose values are
non-zero and leaves zero-valued fields of the stored row unchanged, while a
map-based update writes exactly the given keys, zero values included, and
leaves absent keys unchanged. -/
theorem updates_struct_vs_map (r u : User) (m : UserMap) (now : Nat) :
    ((u.age = 0 → (applyStructUpdate r u now).age = r.age) ∧
     (u.name = "" → (applyStructUpdate r u now).name = r.name) ∧
     (u.email = none → (applyStructUpdate r u now).email = r.email) ∧
     (u.birthday = none → (applyStructUpdate r u now).birthday = r.birthday) ∧
     (u.age ≠ 0 → (applyStructUpdate r u now).age = u.age) ∧
     (u.name ≠ "" → (applyStructUpdate r u now).name = u.name)) ∧
    ((∀ a, m.age = some a → (applyMapUpdate r m now).age = a) ∧
     (∀ s, m.name = some s → (applyMapUpdate r m now).name = s) ∧
     (m.age = none → (applyMapUpdate r m now).age = r.age) ∧
     (m.name = none → (applyMapUpdate r m now).name = r.name) ∧
     (m.email = none → (applyMapUpdate r m now).email = r.email) ∧
     (m.birthday = none → (applyMapUpdate r m now).birthday = r.birthday)) := by
  refine ⟨⟨?_, ?_, ?_, ?_, ?_, ?_⟩, ⟨?_, ?_, ?_, ?_, ?_, ?_⟩⟩
  · intro h
    simp [applyStructUpdate, h]
  · intro h
    simp [applyStructUpdate, h]
  · intro h
    simp [applyStructUpdate, h]
  · intro h
    simp [applyStructUpdate, h]
  · intro h
    simp [applyStructUpdate, h]
  · intro h
    simp [applyStructUpdate, h]
  · intro a h
    simp [applyMapUpdate, h]
  · intro s h
    simp [applyMapUpdate, h]
  · intro h
    simp [applyMapUpdate, h]
  · intro h
    simp [applyMapUpdate, h]
  · intro h
    simp [applyMapUpdate, h]
  · intro h
    simp [applyMapUpdate, h]

/-- C2 witness (the spec's example): on a stored row with age 20, the map
update with name and a zero age writes age 0, while the struct update with
the same name and zero age leaves age at 20. -/
theorem updates_struct_vs_map_witness :
    (applyStructUpdate { id := 1, name := "old", age := 20 }
        { name := "x", age := 0 } 5).age = 20 ∧
    (applyStructUpdate { id := 1, name := "old", age := 20 }
        { name := "x", age := 0 } 5).name = "x" ∧
    (applyMapUpdate { id := 1, name := "old", age := 20 }
        { name := some "x", age := some 0 } 5).age = 0 ∧
    (applyMapUpdate { id := 1, name := "old", age := 20 }
        { name := some "x", age := some 0 } 5).name = "x" :=
  ⟨(updates_struct_vs_map { id := 1, name := "old", age := 20 }
      { name := "x", age := 0 } { name := some "x", age := some 0 } 5).1.1 rfl,
   (updates_struct_vs_map { id := 1, name := "old", age := 20 }
      { name := "x", age := 0 } { name := some "x", age := some 0 }
      5).1.2.2.2.2.2 (by decide),
   (updates_struct_vs_map { id := 1, name := "old", age := 20 }
      { name := "x", age := 0 } { name := some "x", age := some 0 } 5).2.1 0 rfl,
   (updates_struct_vs_map { id := 1, name := "old", age := 20 }
      { name := "x", age := 0 } { name := some "x", age := some 0 } 5).2.2.1
      "x" rfl⟩

/-- C4: a batch update with an empty filter and global update not enabled
for the call fails with the missing-where-clause error and executes nothing
(the state is unchanged); with global update enabled or any non-empty
filter it executes and reports the true affected-row count. -/
theorem updatesBatch_guardrail (db : DB) (conds : List Cond) (u : User)
    (now : Nat) (allow : Bool) :
    (conds = [] → allow = false →
        updatesBatch db conds u now allow = (.error .missingWhereClause, db)) ∧
    (conds ≠ [] ∨ allow = true →
        (updatesBatch db conds u now allow).1 =
          .ok (scopedMatching db conds).length) := by
  constructor
  · rintro rfl rfl
    simp [updatesBatch]
  · intro h
    have hg : (conds.isEmpty && !allow) = false := by
      rcases h with h | rfl
      · cases conds with
        | nil => exact absurd rfl h
        | cons a l => rfl
      · simp
    simp [updatesBatch, hg]

/-- C4 witness: on a one-row database, the unfiltered call without global
update fails with the missing-where-clause error and changes nothing, while
the same call with global update enabled — and a filtered call — report the
affected-row count 1. -/
theorem updatesBatch_guardrail_witness :
    updatesBatch { rows := [{ id := 1, name := "a", age := 18 }], nextId := 2 }
        [] { age := 25 } 5 false =
      (.error .missingWhereClause,
       { rows := [{ id := 1, name := "a", age := 18 }], nextId := 2 }) ∧
    (updatesBatch { rows := [{ id := 1, name := "a", age := 18 }], nextId := 2 }
        [] { age := 25 } 5 true).1 = .ok 1 ∧
    (updatesBatch { rows := [{ id := 1, name := "a", age := 18 }], nextId := 2 }
        [fun r => r.age == 18] { age := 25 } 5 false).1 = .ok 1 :=
  ⟨(updatesBatch_guardrail
      { rows := [{ id := 1, name := "a", age := 18 }], nextId := 2 }
      [] { age := 25 } 5 false).1 rfl rfl,
   (updatesBatch_guardrail
      { rows := [{ id := 1, name := "a", age := 18 }], nextId := 2 }
      [] { age := 25 } 5 true).2 (Or.inr rfl),
   (updatesBatch_guardrail
      { rows := [{ id := 1, name := "a", age := 18 }], nextId := 2 }
      [fun r => r.age == 18] { age := 25 } 5 false).2
      (Or.inl (List.cons_ne_nil _ _))⟩

/-- C6: a single-record create runs the pre-create hook before persistence
— a zero age is stored (and written back) as 20 — unless hooks are skipped
for the call, in which case the record persists unmodified and a zero age
stays 0. -/
theorem create_hook_skip (db : DB) (u : User) (now : Nat) :
    (∀ db1 u1, create db u now false = .ok (db1, u1) →
        u1.age = (if u.age = 0 then 20 else u.age) ∧
        ∃ s, db1.rows = db.rows ++ [s] ∧
          s.age = (if u.age = 0 then 20 else u.age)) ∧
    (∀ db1 u1, create db u now true = .ok (db1, u1) →
        u1.age = u.age ∧ ∃ s, db1.rows = db.rows ++ [s] ∧ s.age = u.age) := by
  constructor
  · intro db1 u1 h
    have hin : insertRow db
        { beforeCreate u with createdAt := now, updateOn := now } =
          .ok (db1, u1) := h
    obtain ⟨hrows, hage, -⟩ := insertRow_ok hin
    have hb : ({ beforeCreate u with
        createdAt := now, updateOn := now } : User).age =
          (if u.age = 0 then 20 else u.age) := by
      simp [beforeCreate]
      split <;> rfl
    refine ⟨hage.trans hb, fillDefaults u1, hrows, ?_⟩
    exact (fillDefaults_fields u1).1.trans (hage.trans hb)
  · intro db1 u1 h
    have hin : insertRow db { u with createdAt := now, updateOn := now } =
        .ok (db1, u1) := h
    obtain ⟨hrows, hage, -⟩ := insertRow_ok hin
    refine ⟨hage, fillDefaults u1, hrows, ?_⟩
    exact (fillDefaults_fields u1).1.trans hage

/-- C6 witness: creating the source's `sharpe-skip-hook` record (zero age)
stores age 20 with hooks on, and age 0 with hooks skipped. -/
theorem create_hook_skip_witness :
    (create emptyDb { name := "sharpe-skip-hook", email := some "test@gmail.com" }
        9 false = .ok
      ({ rows := [{ id := 1, name := "sharpe-skip-hook",
                    email := some "test@gmail.com", age := 20,
                    createdAt := 9, updateOn := 9 }], nextId := 2 },
       { id := 1, name := "sharpe-skip-hook", email := some "test@gmail.com",
         age := 20, createdAt := 9, updateOn := 9 })) ∧
    ({ id := 1, name := "sharpe-skip-hook", email := some "test@gmail.com",
       age := 20, createdAt := 9, updateOn := 9 } : User).age = 20 ∧
    (create emptyDb { name := "sharpe-skip-hook", email := some "test@gmail.com" }
        9 true = .ok
      ({ rows := [{ id := 1, name := "sharpe-skip-hook",
                    email := some "test@gmail.com", age := 0,
                    createdAt := 9, updateOn := 9 }], nextId := 2 },
       { id := 1, name := "sharpe-skip-hook", email := some "test@gmail.com",
         age := 0, createdAt := 9, updateOn := 9 })) ∧
    ({ id := 1, name := "sharpe-skip-hook", email := some "test@gmail.com",
       age := 0, createdAt := 9, updateOn := 9 } : User).age = 0 :=
  ⟨rfl,
   ((create_hook_skip emptyDb
      { name := "sharpe-skip-hook", email := some "test@gmail.com" } 9).1 _ _
      rfl).1,
   rfl,
   ((create_hook_skip emptyDb
      { name := "sharpe-skip-hook", email := some "test@gmail.com" } 9).2 _ _
      rfl).1⟩

/-- C5: on the soft-delete-declaring descriptor, Delete sets the flag
column to the deletion marker instead of removing the row; afterwards every
scoped Find excludes the row while the unscoped Find still sees it. -/
theorem softDelete_flag_scoping (db : DB) (r : User) (conds : List Cond)
    (now : Nat) (hmem : r ∈ db.rows) (hflag : r.isDeleted = 0)
    (hmatch : conds.all (fun c => c r) = true) (hnow : now ≠ 0) :
    { r with isDeleted := now } ∈ (softDelete db conds now).rows ∧
    (softDelete db conds now).rows.length = db.rows.length ∧
    (∀ conds2, { r with isDeleted := now } ∉
        scopedMatching (softDelete db conds now) conds2) ∧
    { r with isDeleted := now } ∈ matching (softDelete db conds now) [] := by
  have hfun : (if notDeleted r && conds.all (fun c => c r) then
      { r with isDeleted := now } else r) = { r with isDeleted := now } := by
    simp [notDeleted, hflag, hmatch]
  have hmem1 : { r with isDeleted := now } ∈ (softDelete db conds now).rows := by
    show { r with isDeleted := now } ∈ db.rows.map (fun x =>
      if notDeleted x && conds.all (fun c => c x) then
        { x with isDeleted := now } else x)
    rw [← hfun]
    exact List.mem_map_of_mem _ hmem
  refine ⟨hmem1, by simp [softDelete], ?_, ?_⟩
  · intro conds2 hmem2
    exact hnow (isDeleted_of_mem_scopedMatching hmem2)
  · simpa [matching] using hmem1

/-- C5 witness: soft-deleting the single stored row by primary key keeps
the row (flagged with the marker 5), the scoped Find excludes it and the
unscoped Find includes it. -/
theorem softDelete_flag_scoping_witness :
    ({ id := 1, name := "u1", isDeleted := 5 } : User) ∈
      (softDelete { rows := [{ id := 1, name := "u1" }], nextId := 2 }
        [fun x => x.id == 1] 5).rows ∧
    (softDelete { rows := [{ id := 1, name := "u1" }], nextId := 2 }
        [fun x => x.id == 1] 5).rows.length = 1 ∧
    ({ id := 1, name := "u1", isDeleted := 5 } : User) ∉
      scopedMatching (softDelete { rows := [{ id := 1, name := "u1" }], nextId := 2 }
        [fun x => x.id == 1] 5) [] ∧
    ({ id := 1, name := "u1", isDeleted := 5 } : User) ∈
      matching (softDelete { rows := [{ id := 1, name := "u1" }], nextId := 2 }
        [fun x => x.id == 1] 5) [] :=
  ⟨(softDelete_flag_scoping { rows := [{ id := 1, name := "u1" }], nextId := 2 }
      { id := 1, name := "u1" } [fun x => x.id == 1] 5
      (List.mem_cons_self _ _) rfl rfl (by decide)).1,
   (softDelete_flag_scoping { rows := [{ id := 1, name := "u1" }], nextId := 2 }
      { id := 1, name := "u1" } [fun x => x.id == 1] 5
      (List.mem_cons_self _ _) rfl rfl (by decide)).2.1,
   (softDelete_flag_scoping { rows := [{ id := 1, name := "u1" }], nextId := 2 }
      { id := 1, name := "u1" } [fun x => x.id == 1] 5
      (List.mem_cons_self _ _) rfl rfl (by decide)).2.2.1 [],
   (softDelete_flag_scoping { rows := [{ id := 1, name := "u1" }], nextId := 2 }
      { id := 1, name := "u1" } [fun x => x.id == 1] 5
      (List.mem_cons_self _ _) rfl rfl (by decide)).2.2.2⟩

/-- C7: a fetch-one without explicit ordering returns the matching row with
the minimum primary key for First and the maximum primary key for Last,
while Take only guarantees a matching row (no implicit ordering). -/
theorem fetch_one_ordering (db : DB) (conds : List Cond) :
    (∀ u, firstRow db conds = .ok u →
        u ∈ scopedMatching db conds ∧
        ∀ v ∈ scopedMatching db conds, u.id ≤ v.id) ∧
    (∀ u, lastRow db conds = .ok u →
        u ∈ scopedMatching db conds ∧
        ∀ v ∈ scopedMatching db conds, v.id ≤ u.id) ∧
    (∀ u, takeRow db conds = .ok u → u ∈ scopedMatching db conds) := by
  refine ⟨?_, ?_, ?_⟩
  · intro u h
    cases hm : scopedMatching db conds with
    | nil =>
      have he : firstRow db conds = .error .recordNotFound := by
        simp [firstRow, hm]
      rw [he] at h
      cases h
    | cons r rs =>
      have h2 : firstRow db conds = .ok (minByPk r rs) := by
        simp [firstRow, hm]
      rw [h2, Except.ok.injEq] at h
      subst h
      exact minByPk_spec r rs
  · intro u h
    cases hm : scopedMatching db conds with
    | nil =>
      have he : lastRow db conds = .error .recordNotFound := by
        simp [lastRow, hm]
      rw [he] at h
      cases h
    | cons r rs =>
      have h2 : lastRow db conds = .ok (maxByPk r rs) := by
        simp [lastRow, hm]
      rw [h2, Except.ok.injEq] at h
      subst h
      exact maxByPk_spec r rs
  · intro u h
    cases hm : scopedMatching db conds with
    | nil =>
      have he : takeRow db conds = .error .recordNotFound := by
        simp [takeRow, hm]
      rw [he] at h
      cases h
    | cons r rs =>
      have h2 : takeRow db conds = .ok r := by
        simp [takeRow, hm]
      rw [h2, Except.ok.injEq] at h
      subst h
      exact List.mem_cons_self _ _

/-- A two-row fixture, stored out of key order: id 2 first, id 1 second. -/
def twoRowDb : DB :=
  { rows := [{ id := 2, name := "a" }, { id := 1, name := "b" }], nextId := 3 }

/-- C7 witness: with rows stored in the order id 2, id 1, First returns the
row with the least key, Last the row with the greatest key, and Take the
stored head — a matching row that differs from First's choice. -/
theorem fetch_one_ordering_witness :
    firstRow twoRowDb [] = .ok { id := 1, name := "b" } ∧
    lastRow twoRowDb [] = .ok { id := 2, name := "a" } ∧
    takeRow twoRowDb [] = .ok { id := 2, name := "a" } ∧
    ({ id := 1, name := "b" } : User) ∈ scopedMatching twoRowDb [] ∧
    (∀ v ∈ scopedMatching twoRowDb [],
      ({ id := 1, name := "b" } : User).id ≤ v.id) ∧
    ({ id := 2, name := "a" } : User) ∈ scopedMatching twoRowDb [] :=
  ⟨rfl, rfl, rfl,
   ((fetch_one_ordering twoRowDb []).1 _ rfl).1,
   ((fetch_one_ordering twoRowDb []).1 _ rfl).2,
   (fetch_one_ordering twoRowDb []).2.2 _ rfl⟩

/-- After merging the missing reflected columns, every reflected column
name is present. -/
lemma merged_complete (cols : List ColumnDef) :
    ∀ c ∈ userColumns,
      ((cols ++ userColumns.filter
          (fun c2 => !(cols.any (fun d => d.name == c2.name)))).any
        (fun d => d.name == c.name)) = true := by
  intro c hcmem
  rw [List.any_append]
  by_cases h : cols.any (fun d => d.name == c.name) = true
  · simp [h]
  · have hf : c ∈ userColumns.filter
        (fun c2 => !(cols.any (fun d => d.name == c2.name))) := by
      rw [List.mem_filter]
      refine ⟨hcmem, ?_⟩
      simp only [Bool.not_eq_true] at h
      simp [h]
    have ha : (userColumns.filter
        (fun c2 => !(cols.any (fun d => d.name == c2.name)))).any
          (fun d => d.name == c.name) = true :=
      List.any_eq_true.mpr ⟨c, hf, by simp⟩
    simp [ha]

/-- Reconciling a table that already holds every reflected column name is a
no-op. -/
lemma autoMigrate_complete (cols : List ColumnDef)
    (hc : ∀ c ∈ userColumns, cols.any (fun d => d.name == c.name) = true) :
    autoMigrate ⟨some cols⟩ = .ok ⟨some cols⟩ := by
  unfold autoMigrate
  have hnil : userColumns.filter
      (fun c => !(cols.any (fun d => d.name == c.name))) = [] := by
    rw [List.filter_eq_nil_iff]
    intro c hcmem
    simp [hc c hcmem]
  simp [hnil]

/-- C9: table initialization is idempotent — after a successful `initTable`
run, a second run returns no error and leaves the schema unchanged (the
table is created only when absent, and existing columns are never dropped
or type-changed by the reconcile step). -/
theorem initTable_idempotent (m m1 : MigratorState)
    (h : initTable m = .ok m1) :
    initTable m1 = .ok m1 ∧
    (∀ cols c, m.table = some cols → c ∈ cols →
        ∃ cols1, m1.table = some cols1 ∧ c ∈ cols1) := by
  cases m with
  | mk tbl =>
    cases tbl with
    | none =>
      have h0 : initTable ⟨none⟩ = .ok ⟨some userColumns⟩ := rfl
      rw [h0, Except.ok.injEq] at h
      subst h
      refine ⟨rfl, ?_⟩
      intro cols c hcols
      exact absurd hcols (by simp)
    | some cols =>
      have h0 : initTable ⟨some cols⟩ = autoMigrate ⟨some cols⟩ := rfl
      rw [h0] at h
      unfold autoMigrate at h
      rw [Except.ok.injEq] at h
      subst h
      constructor
      · have h1 : initTable ⟨some (cols ++ userColumns.filter
            (fun c2 => !(cols.any (fun d => d.name == c2.name))))⟩ =
              autoMigrate ⟨some (cols ++ userColumns.filter
                (fun c2 => !(cols.any (fun d => d.name == c2.name))))⟩ := rfl
        rw [h1]
        exact autoMigrate_complete _ (merged_complete cols)
      · intro cols0 c hcols0 hcmem
        rw [Option.some.injEq] at hcols0
        subst hcols0
        exact ⟨_, rfl, List.mem_append_left _ hcmem⟩

/-- C9 witness: from no table, `initTable` creates the reflected table and
a second run is an error-free no-op; a pre-existing unknown column survives
the run. -/
theorem initTable_idempotent_witness :
    initTable ⟨none⟩ = .ok ⟨some userColumns⟩ ∧
    initTable ⟨some userColumns⟩ = .ok ⟨some userColumns⟩ ∧
    (∃ cols1, (⟨some (⟨"extra", "text"⟩ :: userColumns)⟩ : MigratorState).table =
        some cols1 ∧ (⟨"extra", "text"⟩ : ColumnDef) ∈ cols1) :=
  ⟨rfl,
   (initTable_idempotent ⟨none⟩ ⟨some userColumns⟩ rfl).1,
   (initTable_idempotent ⟨some [⟨"extra", "text"⟩]⟩
      ⟨some (⟨"extra", "text"⟩ :: userColumns)⟩ rfl).2
      [⟨"extra", "text"⟩] ⟨"extra", "text"⟩ rfl (List.mem_cons_self _ _)⟩

/-- C10: a map-based create inserts exactly the supplied key-value pairs —
the pre-create hook does not run (an absent or zero age stays as given
rather than being defaulted to 20), the timestamp columns are not
auto-filled unless supplied as map keys, and the generated primary key is
only stored, not written back (the operation returns no record). -/
theorem createMap_frame (db : DB) (m : UserMap) (db1 : DB)
    (h : createMap db m = .ok db1) :
    ∃ s, db1.rows = db.rows ++ [s] ∧
      s.age = m.age.getD 0 ∧
      s.createdAt = m.createdAt.getD 0 ∧
      s.updateOn = m.updateOn.getD 0 ∧
      s.name = m.name.getD "" ∧
      s.birthday = m.birthday ∧
      s.id = db.nextId := by
  unfold createMap at h
  cases hi : insertRow db (rowOfMap m 0) with
  | error e =>
    rw [hi] at h
    cases h
  | ok p =>
    rw [hi] at h
    rw [Except.ok.injEq] at h
    subst h
    obtain ⟨hrows, hage, hname, hcat, huon, hbd, hdel, hem, hid0, -⟩ :=
      insertRow_ok (show insertRow db (rowOfMap m 0) = .ok (p.1, p.2) from hi)
    refine ⟨fillDefaults p.2, hrows, ?_, ?_, ?_, ?_, ?_, ?_⟩
    · exact (fillDefaults_fields p.2).1.trans hage
    · exact (fillDefaults_fields p.2).2.2.1.trans hcat
    · exact (fillDefaults_fields p.2).2.2.2.1.trans huon
    · exact (fillDefaults_fields p.2).2.1.trans hname
    · exact (fillDefaults_fields p.2).2.2.2.2.2.1.trans hbd
    · exact (fillDefaults_fields p.2).2.2.2.2.1.trans (hid0 rfl)

/-- The state the map create of `sharpe-map` produces from the empty
database. -/
def mapCreatedDb : DB :=
  { rows := [{ id := 1, name := "sharpe-map", email := some "default@gmail.com" }],
    nextId := 2 }

/-- C10 witness: the source's map create with only a name — the stored row
has age 0 (the hook did not run) and zero timestamps, and the operation
yields only the new database state. -/
theorem createMap_frame_witness :
    createMap emptyDb { name := some "sharpe-map" } = .ok mapCreatedDb ∧
    (∃ s, mapCreatedDb.rows = emptyDb.rows ++ [s] ∧
      s.age = 0 ∧ s.createdAt = 0 ∧ s.updateOn = 0 ∧
      s.name = "sharpe-map" ∧ s.birthday = none ∧ s.id = 1) :=
  ⟨rfl, createMap_frame emptyDb { name := some "sharpe-map" } mapCreatedDb rfl⟩

end Gorm
